import Mathlib

/-!
# Verification of the TLS extension decoder (`src/tls_extensions.rs`)

Shallow embedding of the extension-decoding subsystem: the nom streaming
combinators it uses, the per-extension content decoders, the envelope
dispatcher with the GREASE rule, and the sequence decoder, together with
theorems about their behaviour.

Bytes are modelled as `Fin 256`; the `u16` fields (type codes, lengths) are
Nats built from two bytes, so they are `< 2^16` by construction.  A nom
`IResult<&[u8], O>` is modelled as `Except NomErr (List Byte × O)` where the
first component is the remaining input.
-/

namespace TlsParser

abbrev Byte := Fin 256

/-- How many more bytes a streaming parser needs (`nom::Needed`). -/
inductive Needed where
  | unknown : Needed
  | size (n : Nat) : Needed
  deriving DecidableEq, Repr

/-- The nom error kinds this module can produce. -/
inductive ErrorKind where
  | Tag
  | Verify
  | Complete
  | Many0
  deriving DecidableEq, Repr

/-- `nom::Err`: a recoverable error, an unrecoverable failure, or a request
for more input.  (`make_error` produces `Error`; this module never builds a
`Failure`.) -/
inductive NomErr where
  | Incomplete (n : Needed)
  | Error (k : ErrorKind)
  | Failure (k : ErrorKind)
  deriving DecidableEq, Repr

/-- `IResult<&[u8], O>`: remaining input paired with the output, or an error. -/
abbrev IResult (O : Type) := Except NomErr (List Byte × O)

instance {O : Type} [DecidableEq O] : DecidableEq (IResult O) := fun a b =>
  match a, b with
  | .ok x, .ok y => decidable_of_iff (x = y) (by constructor <;> (intro h; cases h; rfl))
  | .error x, .error y => decidable_of_iff (x = y) (by constructor <;> (intro h; cases h; rfl))
  | .ok _, .error _ => isFalse (by intro h; cases h)
  | .error _, .ok _ => isFalse (by intro h; cases h)

/-- `nom::number::streaming::be_u8`. -/
def be_u8 : List Byte → IResult Nat
  | [] => .error (.Incomplete (.size 1))
  | b :: r => .ok (r, b.val)

/-- `nom::number::streaming::be_u16` (big endian). -/
def be_u16 : List Byte → IResult Nat
  | a :: b :: r => .ok (r, a.val * 256 + b.val)
  | r => .error (.Incomplete (.size (2 - r.length)))

/-- `nom::number::streaming::be_u32` (big endian). -/
def be_u32 : List Byte → IResult Nat
  | a :: b :: c :: d :: r =>
      .ok (r, ((a.val * 256 + b.val) * 256 + c.val) * 256 + d.val)
  | r => .error (.Incomplete (.size (4 - r.length)))

/-- `nom::bytes::streaming::take(c)`: exactly `c` bytes, `Incomplete` if fewer
are available. -/
def take (c : Nat) (i : List Byte) : IResult (List Byte) :=
  if c ≤ i.length then .ok (i.drop c, i.take c)
  else .error (.Incomplete (.size (c - i.length)))

/-- `nom::bytes::streaming::tag(t)`: `Incomplete` when the input is a matching
proper prefix of the tag, `Error(Tag)` on a mismatch. -/
def tag (t : List Byte) (i : List Byte) : IResult (List Byte) :=
  if t.length ≤ i.length then
    if i.take t.length = t then .ok (i.drop t.length, t)
    else .error (.Error .Tag)
  else
    if i = t.take i.length then .error (.Incomplete (.size (t.length - i.length)))
    else .error (.Error .Tag)

/-- `nom::multi::length_data(f)`: parse a length with `f`, then take that many
bytes. -/
def length_data (f : List Byte → IResult Nat) (i : List Byte) : IResult (List Byte) :=
  match f i with
  | .ok (i, n) => take n i
  | .error e => .error e

/-- `nom::combinator::map(f, g)`. -/
def nomMap {A B : Type} (f : List Byte → IResult A) (g : A → B) (i : List Byte) :
    IResult B :=
  match f i with
  | .ok (i, a) => .ok (i, g a)
  | .error e => .error e

/-- nom's map-parser combinator from `nom::combinator`: run `f`, feed its output bytes to
`g`, keep `f`'s remaining input and `g`'s output; `g`'s error is returned
verbatim. -/
def mapParser {B : Type} (f : List Byte → IResult (List Byte))
    (g : List Byte → IResult B) (i : List Byte) : IResult B :=
  match f i with
  | .ok (r, o) =>
    match g o with
    | .ok (_, b) => .ok (r, b)
    | .error e => .error e
  | .error e => .error e

/-- `nom::combinator::verify(f, p)`: fail with `Error(Verify)` when the
predicate rejects the parsed value. -/
def verify {A : Type} (f : List Byte → IResult A) (p : A → Bool) (i : List Byte) :
    IResult A :=
  match f i with
  | .ok (r, a) => if p a then .ok (r, a) else .error (.Error .Verify)
  | .error e => .error e

/-- `nom::combinator::complete(f)`: turn `Incomplete` into `Error(Complete)`. -/
def complete {A : Type} (f : List Byte → IResult A) (i : List Byte) : IResult A :=
  match f i with
  | .error (.Incomplete _) => .error (.Error .Complete)
  | r => r

/-- `nom::combinator::cond(b, f)`. -/
def pcond {A : Type} (b : Bool) (f : List Byte → IResult A) (i : List Byte) :
    IResult (Option A) :=
  if b then
    match f i with
    | .ok (r, a) => .ok (r, some a)
    | .error e => .error e
  else .ok (i, none)

/-- `nom::combinator::opt(f)`: a recoverable error yields `none`;
`Incomplete` and `Failure` propagate. -/
def popt {A : Type} (f : List Byte → IResult A) (i : List Byte) :
    IResult (Option A) :=
  match f i with
  | .ok (r, a) => .ok (r, some a)
  | .error (.Error _) => .ok (i, none)
  | .error e => .error e

/-- Loop of `nom::multi::many0(f)`, fuelled.  Stops (successfully) when `f`
returns a recoverable error, propagates other errors, and errors with
`Many0` when `f` succeeds without consuming input.  The fuel only bounds
recursion; with fuel `> i.length` it is never exhausted, since each
iteration must strictly shrink the input. -/
def many0Go {A : Type} (f : List Byte → IResult A) : Nat → List Byte → IResult (List A)
  | 0, _ => .error (.Error .Many0)
  | fuel + 1, i =>
    match f i with
    | .error (.Error _) => .ok (i, [])
    | .error e => .error e
    | .ok (i2, a) =>
      if i2.length < i.length then
        match many0Go f fuel i2 with
        | .ok (r, acc) => .ok (r, a :: acc)
        | .error e => .error e
      else .error (.Error .Many0)

/-- `nom::multi::many0(f)`. -/
def many0 {A : Type} (f : List Byte → IResult A) (i : List Byte) : IResult (List A) :=
  many0Go f (i.length + 1) i

/-- Sequencing of parse steps: `pbind (f i) fun i x => …` renders Rust's
`let (i, x) = f(i)?;`, propagating the error of `f` verbatim. -/
def pbind {A B : Type} (r : IResult A) (f : List Byte → A → IResult B) : IResult B :=
  match r with
  | .ok (i, a) => f i a
  | .error e => .error e

/-! ## Data model (`tls_extensions.rs` types) -/

/-- `pub struct TlsExtensionType(pub u16)`. -/
structure TlsExtensionType where
  code : Nat
  deriving DecidableEq, Repr

/-- The `newtype_enum!` registry constants for `TlsExtensionType`. -/
def TlsExtensionType.ServerName : TlsExtensionType := ⟨0x0000⟩

def TlsExtensionType.MaxFragmentLength : TlsExtensionType := ⟨0x0001⟩

def TlsExtensionType.ClientCertificate : TlsExtensionType := ⟨0x0002⟩

def TlsExtensionType.TrustedCaKeys : TlsExtensionType := ⟨0x0003⟩

def TlsExtensionType.TruncatedHMac : TlsExtensionType := ⟨0x0004⟩

def TlsExtensionType.StatusRequest : TlsExtensionType := ⟨0x0005⟩

def TlsExtensionType.UserMapping : TlsExtensionType := ⟨0x0006⟩

def TlsExtensionType.ClientAuthz : TlsExtensionType := ⟨0x0007⟩

def TlsExtensionType.ServerAuthz : TlsExtensionType := ⟨0x0008⟩

def TlsExtensionType.CertType : TlsExtensionType := ⟨0x0009⟩

def TlsExtensionType.SupportedGroups : TlsExtensionType := ⟨0x000a⟩

def TlsExtensionType.EcPointFormats : TlsExtensionType := ⟨0x000b⟩

def TlsExtensionType.Srp : TlsExtensionType := ⟨0x000c⟩

def TlsExtensionType.SignatureAlgorithms : TlsExtensionType := ⟨0x000d⟩

def TlsExtensionType.UseSrtp : TlsExtensionType := ⟨0x000e⟩

def TlsExtensionType.Heartbeat : TlsExtensionType := ⟨0x000f⟩

def TlsExtensionType.ApplicationLayerProtocolNegotiation : TlsExtensionType := ⟨0x0010⟩

def TlsExtensionType.StatusRequestv2 : TlsExtensionType := ⟨0x0011⟩

def TlsExtensionType.SignedCertificateTimestamp : TlsExtensionType := ⟨0x0012⟩

def TlsExtensionType.ClientCertificateType : TlsExtensionType := ⟨0x0013⟩

def TlsExtensionType.ServerCertificateType : TlsExtensionType := ⟨0x0014⟩

def TlsExtensionType.Padding : TlsExtensionType := ⟨0x0015⟩

def TlsExtensionType.EncryptThenMac : TlsExtensionType := ⟨0x0016⟩

def TlsExtensionType.ExtendedMasterSecret : TlsExtensionType := ⟨0x0017⟩

def TlsExtensionType.TokenBinding : TlsExtensionType := ⟨0x0018⟩

def TlsExtensionType.CachedInfo : TlsExtensionType := ⟨0x0019⟩

def TlsExtensionType.RecordSizeLimit : TlsExtensionType := ⟨0x001c⟩

def TlsExtensionType.SessionTicketTLS : TlsExtensionType := ⟨0x0023⟩

def TlsExtensionType.KeyShareOld : TlsExtensionType := ⟨0x0028⟩

def TlsExtensionType.PreSharedKey : TlsExtensionType := ⟨0x0029⟩

def TlsExtensionType.EarlyData : TlsExtensionType := ⟨0x002a⟩

def TlsExtensionType.SupportedVersions : TlsExtensionType := ⟨0x002b⟩

def TlsExtensionType.Cookie : TlsExtensionType := ⟨0x002c⟩

def TlsExtensionType.PskExchangeModes : TlsExtensionType := ⟨0x002d⟩

def TlsExtensionType.TicketEarlyDataInfo : TlsExtensionType := ⟨0x002e⟩

def TlsExtensionType.CertificateAuthorities : TlsExtensionType := ⟨0x002f⟩

def TlsExtensionType.OidFilters : TlsExtensionType := ⟨0x0030⟩

def TlsExtensionType.PostHandshakeAuth : TlsExtensionType := ⟨0x0031⟩

def TlsExtensionType.SigAlgorithmsCert : TlsExtensionType := ⟨0x0032⟩

def TlsExtensionType.KeyShare : TlsExtensionType := ⟨0x0033⟩

def TlsExtensionType.NextProtocolNegotiation : TlsExtensionType := ⟨0x3374⟩

def TlsExtensionType.Grease : TlsExtensionType := ⟨0xfafa⟩

def TlsExtensionType.RenegotiationInfo : TlsExtensionType := ⟨0xff01⟩

def TlsExtensionType.EncryptedServerName : TlsExtensionType := ⟨0xffce⟩

/-- `TlsExtensionType::from_u16`. -/
def TlsExtensionType.from_u16 (t : Nat) : TlsExtensionType := ⟨t⟩

/-- `pub struct SNIType(pub u8)` (a u8 newtype, modelled as its numeral). -/
abbrev SNIType := Nat

/-- `pub struct CertificateStatusType(pub u8)` (a u8 newtype, modelled as its
numeral). -/
abbrev CertificateStatusType := Nat

/-- `NamedGroup` from `tls_ec.rs` (a u16 newtype, modelled as its numeral). -/
abbrev NamedGroup := Nat

/-- `TlsVersion` from `tls.rs` (a u16 newtype, modelled as its numeral). -/
abbrev TlsVersion := Nat

/-- `TlsCipherSuiteID` from `tls.rs` (a u16 newtype, modelled as its
numeral). -/
abbrev TlsCipherSuiteID := Nat

/-- `pub struct OidFilter<'a>`. -/
structure OidFilter where
  cert_ext_oid : List Byte
  cert_ext_val : List Byte
  deriving DecidableEq, Repr

/-- `pub enum TlsExtension<'a>`: the tagged union of decoded extensions. -/
inductive TlsExtension where
  | SNI (v : List (SNIType × List Byte))
  | MaxFragmentLength (v : Nat)
  | StatusRequest (v : Option (CertificateStatusType × List Byte))
  | EllipticCurves (v : List NamedGroup)
  | EcPointFormats (v : List Byte)
  | SignatureAlgorithms (v : List Nat)
  | RecordSizeLimit (v : Nat)
  | SessionTicket (v : List Byte)
  | KeyShareOld (v : List Byte)
  | KeyShare (v : List Byte)
  | PreSharedKey (v : List Byte)
  | EarlyData (v : Option Nat)
  | SupportedVersions (v : List TlsVersion)
  | Cookie (v : List Byte)
  | PskExchangeModes (v : List Byte)
  | Heartbeat (v : Nat)
  | ALPN (v : List (List Byte))
  | SignedCertificateTimestamp (v : Option (List Byte))
  | Padding (v : List Byte)
  | EncryptThenMac
  | ExtendedMasterSecret
  | OidFilters (v : List OidFilter)
  | PostHandshakeAuth
  | NextProtocolNegotiation
  | RenegotiationInfo (v : List Byte)
  | EncryptedServerName (ciphersuite : TlsCipherSuiteID) (group : NamedGroup)
      (key_share record_digest encrypted_sni : List Byte)
  | Grease (c : Nat) (d : List Byte)
  | Unknown (t : TlsExtensionType) (d : List Byte)
  deriving DecidableEq, Repr

/-- `impl From<&TlsExtension> for TlsExtensionType`: the type-code projection
of a decoded extension value. -/
def TlsExtensionType.fromExt : TlsExtension → TlsExtensionType
  | .SNI _ => TlsExtensionType.ServerName
  | .MaxFragmentLength _ => TlsExtensionType.MaxFragmentLength
  | .StatusRequest _ => TlsExtensionType.StatusRequest
  | .EllipticCurves _ => TlsExtensionType.SupportedGroups
  | .EcPointFormats _ => TlsExtensionType.EcPointFormats
  | .SignatureAlgorithms _ => TlsExtensionType.SignatureAlgorithms
  | .SessionTicket _ => TlsExtensionType.SessionTicketTLS
  | .RecordSizeLimit _ => TlsExtensionType.RecordSizeLimit
  | .KeyShareOld _ => TlsExtensionType.KeyShareOld
  | .KeyShare _ => TlsExtensionType.KeyShare
  | .PreSharedKey _ => TlsExtensionType.PreSharedKey
  | .EarlyData _ => TlsExtensionType.EarlyData
  | .SupportedVersions _ => TlsExtensionType.SupportedVersions
  | .Cookie _ => TlsExtensionType.Cookie
  | .PskExchangeModes _ => TlsExtensionType.PskExchangeModes
  | .Heartbeat _ => TlsExtensionType.Heartbeat
  | .ALPN _ => TlsExtensionType.ApplicationLayerProtocolNegotiation
  | .SignedCertificateTimestamp _ => TlsExtensionType.SignedCertificateTimestamp
  | .Padding _ => TlsExtensionType.Padding
  | .EncryptThenMac => TlsExtensionType.EncryptThenMac
  | .ExtendedMasterSecret => TlsExtensionType.ExtendedMasterSecret
  | .OidFilters _ => TlsExtensionType.OidFilters
  | .PostHandshakeAuth => TlsExtensionType.PostHandshakeAuth
  | .NextProtocolNegotiation => TlsExtensionType.NextProtocolNegotiation
  | .RenegotiationInfo _ => TlsExtensionType.RenegotiationInfo
  | .EncryptedServerName _ _ _ _ _ => TlsExtensionType.EncryptedServerName
  | .Grease _ _ => TlsExtensionType.Grease
  | .Unknown x _ => x

/-! ## Collaborator decoders (outside `src/`) -/

/-- Modelled from the spec: `TlsVersion::parse` from `tls.rs` is not under
`src/`; the spec describes a ProtocolVersion as a big-endian u16 value. -/
def TlsVersion.parse (i : List Byte) : IResult TlsVersion := be_u16 i

/-- Modelled from the spec: `parse_tls_versions` from `tls.rs` is not under
`src/`; the spec says `parseVersionList(bytes) -> ordered sequence of
ProtocolVersion`, each version a big-endian u16, and its SupportedVersions
examples show the byte range read as consecutive u16 values in wire order. -/
def parse_tls_versions (i : List Byte) : IResult (List TlsVersion) :=
  many0 (complete TlsVersion.parse) i

/-- Modelled from the spec: `NamedGroup::parse` from `tls_ec.rs` is not under
`src/`; the spec says group codes are u16 values, so the element decoder
reads one big-endian u16. -/
def NamedGroup.parse (i : List Byte) : IResult NamedGroup := be_u16 i

/-- Modelled from the spec: `parse_named_groups` from `tls_ec.rs` is not
under `src/`; the spec says `parseNamedGroupList(bytes) -> ordered sequence
of NamedGroup`, reading the byte range as consecutive u16 group codes. -/
def parse_named_groups (i : List Byte) : IResult (List NamedGroup) :=
  many0 (complete NamedGroup.parse) i

/-! ## Per-type content decoders and envelope parsers -/

/-- `parse_tls_extension_sni_hostname` (`SNIType::parse` is the derived
big-endian u8 read on the u8 newtype). -/
def parse_tls_extension_sni_hostname (i : List Byte) : IResult (SNIType × List Byte) :=
  pbind (be_u8 i) fun i t =>
  pbind (length_data be_u16 i) fun i v =>
  .ok (i, (t, v))

/-- `parse_tls_extension_sni_content`. -/
def parse_tls_extension_sni_content (i : List Byte) : IResult TlsExtension :=
  pbind (be_u16 i) fun i list_len =>
  pbind (mapParser (take list_len)
    (many0 (complete parse_tls_extension_sni_hostname)) i) fun i v =>
  .ok (i, .SNI v)

/-- `parse_tls_extension_sni`. -/
def parse_tls_extension_sni (i : List Byte) : IResult TlsExtension :=
  pbind (tag [0x00, 0x00] i) fun i _ =>
  mapParser (length_data be_u16) parse_tls_extension_sni_content i

/-- `parse_tls_extension_max_fragment_length_content`. -/
def parse_tls_extension_max_fragment_length_content (i : List Byte) : IResult TlsExtension :=
  nomMap be_u8 TlsExtension.MaxFragmentLength i

/-- `parse_tls_extension_max_fragment_length`. -/
def parse_tls_extension_max_fragment_length (i : List Byte) : IResult TlsExtension :=
  pbind (tag [0x00, 0x01] i) fun i _ =>
  mapParser (length_data be_u16) parse_tls_extension_max_fragment_length_content i

/-- `parse_tls_extension_status_request_content`. -/
def parse_tls_extension_status_request_content (i : List Byte) (ext_len : Nat) :
    IResult TlsExtension :=
  match ext_len with
  | 0 => .ok (i, .StatusRequest none)
  | _ =>
    pbind (be_u8 i) fun i status_type =>
    pbind (take (ext_len - 1) i) fun i request =>
    .ok (i, .StatusRequest (some (status_type, request)))

/-- `parse_tls_extension_status_request`. -/
def parse_tls_extension_status_request (i : List Byte) : IResult TlsExtension :=
  pbind (tag [0x00, 0x05] i) fun i _ =>
  pbind (be_u16 i) fun i ext_len =>
  mapParser (take ext_len) (fun d => parse_tls_extension_status_request_content d ext_len) i

/-- `parse_tls_extension_elliptic_curves_content`. -/
def parse_tls_extension_elliptic_curves_content (i : List Byte) : IResult TlsExtension :=
  mapParser (length_data be_u16)
    (nomMap parse_named_groups TlsExtension.EllipticCurves) i

/-- `parse_tls_extension_elliptic_curves` (the source's tag is `[0x00, 0x0a]`). -/
def parse_tls_extension_elliptic_curves (i : List Byte) : IResult TlsExtension :=
  pbind (tag [0x00, 0x0a] i) fun i _ =>
  mapParser (length_data be_u16) parse_tls_extension_elliptic_curves_content i

/-- `parse_tls_extension_ec_point_formats_content`. -/
def parse_tls_extension_ec_point_formats_content (i : List Byte) : IResult TlsExtension :=
  nomMap (length_data be_u8) TlsExtension.EcPointFormats i

/-- `parse_tls_extension_ec_point_formats` (the source's tag is `[0x00, 0x0a]`). -/
def parse_tls_extension_ec_point_formats (i : List Byte) : IResult TlsExtension :=
  pbind (tag [0x00, 0x0a] i) fun i _ =>
  mapParser (length_data be_u16) parse_tls_extension_ec_point_formats_content i

/-- `parse_tls_extension_signature_algorithms_content`. -/
def parse_tls_extension_signature_algorithms_content (i : List Byte) : IResult TlsExtension :=
  pbind (mapParser (length_data be_u16) (many0 (complete be_u16)) i) fun i l =>
  .ok (i, .SignatureAlgorithms l)

/-- `parse_tls_extension_signature_algorithms`. -/
def parse_tls_extension_signature_algorithms (i : List Byte) : IResult TlsExtension :=
  pbind (tag [0x00, 0x0d] i) fun i _ =>
  mapParser (length_data be_u16) parse_tls_extension_signature_algorithms_content i

/-- `parse_tls_extension_heartbeat_content`. -/
def parse_tls_extension_heartbeat_content (i : List Byte) : IResult TlsExtension :=
  nomMap be_u8 TlsExtension.Heartbeat i

/-- `parse_tls_extension_heartbeat` (the source's tag is `[0x00, 0x0d]`). -/
def parse_tls_extension_heartbeat (i : List Byte) : IResult TlsExtension :=
  pbind (tag [0x00, 0x0d] i) fun i _ =>
  pbind (verify be_u16 (fun n => n == 1) i) fun i ext_len =>
  mapParser (take ext_len) parse_tls_extension_heartbeat_content i

/-- `parse_protocol_name`. -/
def parse_protocol_name (i : List Byte) : IResult (List Byte) :=
  length_data be_u8 i

/-- `parse_tls_extension_alpn_content`. -/
def parse_tls_extension_alpn_content (i : List Byte) : IResult TlsExtension :=
  pbind (mapParser (length_data be_u16) (many0 (complete parse_protocol_name)) i) fun i v =>
  .ok (i, .ALPN v)

/-- `parse_tls_extension_padding_content`. -/
def parse_tls_extension_padding_content (i : List Byte) (ext_len : Nat) :
    IResult TlsExtension :=
  nomMap (take ext_len) TlsExtension.Padding i

/-- `parse_tls_extension_signed_certificate_timestamp_content`. -/
def parse_tls_extension_signed_certificate_timestamp_content (i : List Byte) :
    IResult TlsExtension :=
  nomMap (popt (complete (length_data be_u16)))
    TlsExtension.SignedCertificateTimestamp i

/-- `parse_tls_extension_encrypt_then_mac_content`. -/
def parse_tls_extension_encrypt_then_mac_content (i : List Byte) (ext_len : Nat) :
    IResult TlsExtension :=
  if ext_len ≠ 0 then .error (.Error .Verify)
  else .ok (i, .EncryptThenMac)

/-- `parse_tls_extension_encrypt_then_mac`. -/
def parse_tls_extension_encrypt_then_mac (i : List Byte) : IResult TlsExtension :=
  pbind (tag [0x00, 0x16] i) fun i _ =>
  pbind (be_u16 i) fun i ext_len =>
  mapParser (take ext_len) (fun d => parse_tls_extension_encrypt_then_mac_content d ext_len) i

/-- `parse_tls_extension_extended_master_secret_content`. -/
def parse_tls_extension_extended_master_secret_content (i : List Byte) (ext_len : Nat) :
    IResult TlsExtension :=
  if ext_len ≠ 0 then .error (.Error .Verify)
  else .ok (i, .ExtendedMasterSecret)

/-- `parse_tls_extension_extended_master_secret`. -/
def parse_tls_extension_extended_master_secret (i : List Byte) : IResult TlsExtension :=
  pbind (tag [0x00, 0x17] i) fun i _ =>
  pbind (be_u16 i) fun i ext_len =>
  mapParser (take ext_len)
    (fun d => parse_tls_extension_extended_master_secret_content d ext_len) i

/-- `parse_tls_extension_record_size_limit`. -/
def parse_tls_extension_record_size_limit (i : List Byte) : IResult TlsExtension :=
  nomMap be_u16 TlsExtension.RecordSizeLimit i

/-- `parse_tls_extension_session_ticket_content`. -/
def parse_tls_extension_session_ticket_content (i : List Byte) (ext_len : Nat) :
    IResult TlsExtension :=
  nomMap (take ext_len) TlsExtension.SessionTicket i

/-- `parse_tls_extension_session_ticket`. -/
def parse_tls_extension_session_ticket (i : List Byte) : IResult TlsExtension :=
  pbind (tag [0x00, 0x23] i) fun i _ =>
  pbind (be_u16 i) fun i ext_len =>
  mapParser (take ext_len) (fun d => parse_tls_extension_session_ticket_content d ext_len) i

/-- `parse_tls_extension_key_share_old_content`. -/
def parse_tls_extension_key_share_old_content (i : List Byte) (ext_len : Nat) :
    IResult TlsExtension :=
  nomMap (take ext_len) TlsExtension.KeyShareOld i

/-- `parse_tls_extension_key_share_content`. -/
def parse_tls_extension_key_share_content (i : List Byte) (ext_len : Nat) :
    IResult TlsExtension :=
  nomMap (take ext_len) TlsExtension.KeyShare i

/-- `parse_tls_extension_key_share`. -/
def parse_tls_extension_key_share (i : List Byte) : IResult TlsExtension :=
  pbind (tag [0x00, 0x33] i) fun i _ =>
  pbind (be_u16 i) fun i ext_len =>
  mapParser (take ext_len) (fun d => parse_tls_extension_key_share_content d ext_len) i

/-- `parse_tls_extension_pre_shared_key_content`. -/
def parse_tls_extension_pre_shared_key_content (i : List Byte) (ext_len : Nat) :
    IResult TlsExtension :=
  nomMap (take ext_len) TlsExtension.PreSharedKey i

/-- `parse_tls_extension_pre_shared_key`. -/
def parse_tls_extension_pre_shared_key (i : List Byte) : IResult TlsExtension :=
  pbind (tag [0x00, 0x28] i) fun i _ =>
  pbind (be_u16 i) fun i ext_len =>
  mapParser (take ext_len) (fun d => parse_tls_extension_pre_shared_key_content d ext_len) i

/-- `parse_tls_extension_early_data_content`. -/
def parse_tls_extension_early_data_content (i : List Byte) (ext_len : Nat) :
    IResult TlsExtension :=
  nomMap (pcond (ext_len > 0) be_u32) TlsExtension.EarlyData i

/-- `parse_tls_extension_early_data`. -/
def parse_tls_extension_early_data (i : List Byte) : IResult TlsExtension :=
  pbind (tag [0x00, 0x2a] i) fun i _ =>
  pbind (be_u16 i) fun i ext_len =>
  mapParser (take ext_len) (fun d => parse_tls_extension_early_data_content d ext_len) i

/-- `parse_tls_extension_supported_versions_content`: dual format keyed on
the declared length; note that in the `else` branch the leading byte is read
*before* the `ext_len == 0` check. -/
def parse_tls_extension_supported_versions_content (i : List Byte) (ext_len : Nat) :
    IResult TlsExtension :=
  if ext_len = 2 then
    nomMap be_u16 (fun x => TlsExtension.SupportedVersions [x]) i
  else
    pbind (be_u8 i) fun i _ =>
    if ext_len = 0 then
      .error (.Error .Verify)
    else
      pbind (mapParser (take (ext_len - 1)) parse_tls_versions i) fun i l =>
      .ok (i, .SupportedVersions l)

/-- `parse_tls_extension_supported_versions`. -/
def parse_tls_extension_supported_versions (i : List Byte) : IResult TlsExtension :=
  pbind (tag [0x00, 0x2b] i) fun i _ =>
  pbind (be_u16 i) fun i ext_len =>
  mapParser (take ext_len)
    (fun d => parse_tls_extension_supported_versions_content d ext_len) i

/-- `parse_tls_extension_cookie_content`. -/
def parse_tls_extension_cookie_content (i : List Byte) (ext_len : Nat) :
    IResult TlsExtension :=
  nomMap (take ext_len) TlsExtension.Cookie i

/-- `parse_tls_extension_cookie`. -/
def parse_tls_extension_cookie (i : List Byte) : IResult TlsExtension :=
  pbind (tag [0x00, 0x2c] i) fun i _ =>
  pbind (be_u16 i) fun i ext_len =>
  mapParser (take ext_len) (fun d => parse_tls_extension_cookie_content d ext_len) i

/-- `parse_tls_extension_psk_key_exchange_modes_content`. -/
def parse_tls_extension_psk_key_exchange_modes_content (i : List Byte) :
    IResult TlsExtension :=
  pbind (length_data be_u8 i) fun i v =>
  .ok (i, .PskExchangeModes v)

/-- `parse_tls_extension_psk_key_exchange_modes`. -/
def parse_tls_extension_psk_key_exchange_modes (i : List Byte) : IResult TlsExtension :=
  pbind (tag [0x00, 0x2d] i) fun i _ =>
  pbind (be_u16 i) fun i ext_len =>
  mapParser (take ext_len) parse_tls_extension_psk_key_exchange_modes_content i

/-- `parse_tls_extension_npn_content`. -/
def parse_tls_extension_npn_content (i : List Byte) (ext_len : Nat) :
    IResult TlsExtension :=
  if ext_len ≠ 0 then .error (.Error .Verify)
  else .ok (i, .NextProtocolNegotiation)

/-- `parse_tls_extension_renegotiation_info_content`. -/
def parse_tls_extension_renegotiation_info_content (i : List Byte) :
    IResult TlsExtension :=
  nomMap (length_data be_u8) TlsExtension.RenegotiationInfo i

/-- `parse_tls_extension_encrypted_server_name`. -/
def parse_tls_extension_encrypted_server_name (i : List Byte) : IResult TlsExtension :=
  pbind (be_u16 i) fun i ciphersuite =>
  pbind (NamedGroup.parse i) fun i group =>
  pbind (length_data be_u16 i) fun i key_share =>
  pbind (length_data be_u16 i) fun i record_digest =>
  pbind (length_data be_u16 i) fun i encrypted_sni =>
  .ok (i, .EncryptedServerName ciphersuite group key_share record_digest encrypted_sni)

/-- `parse_tls_oid_filter`. -/
def parse_tls_oid_filter (i : List Byte) : IResult OidFilter :=
  pbind (length_data be_u8 i) fun i cert_ext_oid =>
  pbind (length_data be_u16 i) fun i cert_ext_val =>
  .ok (i, ⟨cert_ext_oid, cert_ext_val⟩)

/-- `parse_tls_extension_oid_filters`. -/
def parse_tls_extension_oid_filters (i : List Byte) : IResult TlsExtension :=
  pbind (mapParser (length_data be_u16) (many0 (complete parse_tls_oid_filter)) i) fun i v =>
  .ok (i, .OidFilters v)

/-- `parse_tls_extension_post_handshake_auth_content`. -/
def parse_tls_extension_post_handshake_auth_content (i : List Byte) (ext_len : Nat) :
    IResult TlsExtension :=
  if ext_len ≠ 0 then .error (.Error .Verify)
  else .ok (i, .PostHandshakeAuth)

/-- `parse_tls_extension_unknown`. -/
def parse_tls_extension_unknown (i : List Byte) : IResult TlsExtension :=
  pbind (be_u16 i) fun i ext_type =>
  pbind (length_data be_u16 i) fun i ext_data =>
  .ok (i, .Unknown (TlsExtensionType.from_u16 ext_type) ext_data)

/-- `parse_tls_extension_with_type`: the GREASE rule, then table dispatch. -/
def parse_tls_extension_with_type (i : List Byte) (ext_type : Nat) (ext_len : Nat) :
    IResult TlsExtension :=
  if ext_type &&& 0x0f0f = 0x0a0a then
    nomMap (take ext_len) (fun d => TlsExtension.Grease ext_type d) i
  else
    match ext_type with
    | 0x0000 => parse_tls_extension_sni_content i
    | 0x0001 => parse_tls_extension_max_fragment_length_content i
    | 0x0005 => parse_tls_extension_status_request_content i ext_len
    | 0x000a => parse_tls_extension_elliptic_curves_content i
    | 0x000b => parse_tls_extension_ec_point_formats_content i
    | 0x000d => parse_tls_extension_signature_algorithms_content i
    | 0x000f => parse_tls_extension_heartbeat_content i
    | 0x0010 => parse_tls_extension_alpn_content i
    | 0x0012 => parse_tls_extension_signed_certificate_timestamp_content i
    | 0x0015 => parse_tls_extension_padding_content i ext_len
    | 0x0016 => parse_tls_extension_encrypt_then_mac_content i ext_len
    | 0x0017 => parse_tls_extension_extended_master_secret_content i ext_len
    | 0x001c => parse_tls_extension_record_size_limit i
    | 0x0023 => parse_tls_extension_session_ticket_content i ext_len
    | 0x0028 => parse_tls_extension_key_share_old_content i ext_len
    | 0x0029 => parse_tls_extension_pre_shared_key_content i ext_len
    | 0x002a => parse_tls_extension_early_data_content i ext_len
    | 0x002b => parse_tls_extension_supported_versions_content i ext_len
    | 0x002c => parse_tls_extension_cookie_content i ext_len
    | 0x002d => parse_tls_extension_psk_key_exchange_modes_content i
    | 0x0030 => parse_tls_extension_oid_filters i
    | 0x0031 => parse_tls_extension_post_handshake_auth_content i ext_len
    | 0x0033 => parse_tls_extension_key_share_content i ext_len
    | 0x3374 => parse_tls_extension_npn_content i ext_len
    | 0xff01 => parse_tls_extension_renegotiation_info_content i
    | 0xffce => parse_tls_extension_encrypted_server_name i
    | _ => nomMap (take ext_len)
        (fun ext_data => TlsExtension.Unknown (TlsExtensionType.from_u16 ext_type) ext_data) i

/-- `parse_tls_extension`: the envelope parser. -/
def parse_tls_extension (i : List Byte) : IResult TlsExtension :=
  pbind (be_u16 i) fun i ext_type =>
  pbind (be_u16 i) fun i ext_len =>
  mapParser (take ext_len) (fun d => parse_tls_extension_with_type d ext_type ext_len) i

/-- `parse_tls_extensions`: the sequence parser. -/
def parse_tls_extensions (i : List Byte) : IResult (List TlsExtension) :=
  many0 (complete parse_tls_extension) i

/-! ## General inversion lemmas for the combinators -/

theorem pbind_ok_inv {A B : Type} {r : IResult A} {f : List Byte → A → IResult B}
    {z : List Byte × B} (h : pbind r f = .ok z) :
    ∃ i a, r = .ok (i, a) ∧ f i a = .ok z := by
  cases r with
  | ok p => exact ⟨p.1, p.2, rfl, h⟩
  | error e => simp [pbind] at h

theorem nomMap_ok_inv {A B : Type} {f : List Byte → IResult A} {g : A → B}
    {i : List Byte} {z : List Byte × B} (h : nomMap f g i = .ok z) :
    ∃ a, f i = .ok (z.1, a) ∧ z.2 = g a := by
  unfold nomMap at h
  cases hf : f i with
  | ok p => rw [hf] at h; exact ⟨p.2, by cases h; rfl, by cases h; rfl⟩
  | error e => rw [hf] at h; cases h

theorem mapParser_ok_inv {B : Type} {f : List Byte → IResult (List Byte)}
    {g : List Byte → IResult B} {i : List Byte} {z : List Byte × B}
    (h : mapParser f g i = .ok z) :
    ∃ o r2, f i = .ok (z.1, o) ∧ g o = .ok (r2, z.2) := by
  unfold mapParser at h
  cases hf : f i with
  | ok p =>
    obtain ⟨r1, o⟩ := p
    rw [hf] at h
    dsimp only at h
    cases hg : g o with
    | ok q =>
      obtain ⟨r2, b⟩ := q
      rw [hg] at h
      cases h
      exact ⟨o, r2, rfl, hg⟩
    | error e => rw [hg] at h; cases h
  | error e => rw [hf] at h; cases h

theorem take_zero (i : List Byte) : take 0 i = .ok (i, []) := by
  simp [take]

theorem take_exact (i : List Byte) : take i.length i = .ok ([], i) := by
  simp [take]

theorem take_append (i r : List Byte) : take i.length (i ++ r) = .ok (r, i) := by
  simp [take, List.take_left, List.drop_left]

theorem take_short {n : Nat} {i : List Byte} (h : i.length < n) :
    take n i = .error (.Incomplete (.size (n - i.length))) := by
  simp [take, Nat.not_le_of_lt h, h]

/-! ## Claim theorems -/

/-- C10: the type-code projection maps every `Grease` value, whatever GREASE
code it carries, to the constant registry code `Grease = 0xfafa`; two Grease
values with different codes project to the same type code, so the code is
recoverable only from the value's own first field. -/
theorem grease_projection_constant :
    (∀ (c : Nat) (d : List Byte),
        TlsExtensionType.fromExt (.Grease c d) = TlsExtensionType.Grease) ∧
    TlsExtensionType.Grease.code = 0xfafa ∧
    TlsExtensionType.fromExt (.Grease 0x0a0a []) = TlsExtensionType.fromExt (.Grease 0x1a1a []) := by
  exact ⟨fun c d => rfl, rfl, rfl⟩

/-- C5 (refuted as stated — the code is the slip): decoding a
SupportedVersions extension with declared length 0 yields
`Incomplete(Needed(1))`, not a `Verify` error: in
`parse_tls_extension_supported_versions_content` the `be_u8` read runs
before the `ext_len == 0` check, so on the 0-byte body the streaming read
signals `Incomplete` first and the `Verify` branch is unreachable. -/
theorem supported_versions_len_zero_incomplete :
    parse_tls_extension ([0x00, 0x2b, 0x00, 0x00] : List Byte) =
      .error (.Incomplete (.size 1)) ∧
    parse_tls_extension_supported_versions_content ([] : List Byte) 0 =
      .error (.Incomplete (.size 1)) ∧
    parse_tls_extension ([0x00, 0x2b, 0x00, 0x00] : List Byte) ≠
      .error (.Error .Verify) := by
  decide

/-- C6 (refuted as stated — the code is the slip): the standalone
`parse_tls_extension_heartbeat` envelope parser matches tag `[0x00, 0x0d]`,
contradicting the registry constant `Heartbeat = 0x000f` in the same file,
so a well-formed length-1 heartbeat envelope of type 0x000f fails with a
`Tag` error (while a 0x000d envelope is accepted); and the dispatch path
never checks the declared length for type 0x000f, so a declared length of 2
succeeds. -/
theorem heartbeat_decode_divergence :
    parse_tls_extension_heartbeat ([0x00, 0x0f, 0x00, 0x01, 0x2a] : List Byte) =
      .error (.Error .Tag) ∧
    TlsExtensionType.Heartbeat.code = 0x000f ∧
    parse_tls_extension_heartbeat ([0x00, 0x0d, 0x00, 0x01, 0x2a] : List Byte) =
      .ok ([], .Heartbeat 0x2a) ∧
    parse_tls_extension ([0x00, 0x0f, 0x00, 0x02, 0x01, 0x02] : List Byte) =
      .ok ([], .Heartbeat 0x01) := by
  decide

/-- C1: for every 16-bit type code `c` (given by its two envelope bytes) with
`c &&& 0x0f0f = 0x0a0a` and a body of exactly the declared length, the
envelope decoder returns the `Grease` case carrying `c` and the raw body —
the GREASE check precedes the dispatch table, so no per-type content decoder
is consulted. -/
theorem grease_precedence (t1 t0 l1 l0 : Byte) (body r : List Byte)
    (hg : (t1.val * 256 + t0.val) &&& 0x0f0f = 0x0a0a)
    (hlen : l1.val * 256 + l0.val = body.length) :
    parse_tls_extension (t1 :: t0 :: l1 :: l0 :: (body ++ r)) =
      .ok (r, .Grease (t1.val * 256 + t0.val) body) := by
  simp only [parse_tls_extension, be_u16, pbind, hlen]
  unfold mapParser
  rw [take_append]
  dsimp only
  unfold parse_tls_extension_with_type
  rw [if_pos hg]
  unfold nomMap
  rw [take_exact]

theorem grease_precedence_witness :
    (0x1a1a : Nat) &&& 0x0f0f = 0x0a0a ∧
    parse_tls_extension ([0x1a, 0x1a, 0x00, 0x01, 0xab] : List Byte) =
      .ok ([], .Grease 0x1a1a [0xab]) :=
  ⟨by decide, grease_precedence 0x1a 0x1a 0x00 0x01 [0xab] [] (by decide) (by decide)⟩

/-- C3: each zero-payload extension (EncryptThenMac 0x0016,
ExtendedMasterSecret 0x0017, PostHandshakeAuth 0x0031) decodes successfully
from an envelope with declared length 0, and an envelope with declared
length > 0 (body of exactly the declared length) fails with a `Verify`
error. -/
theorem zero_payload_extensions :
    (∀ r : List Byte,
      parse_tls_extension (0x00 :: 0x16 :: 0x00 :: 0x00 :: r) = .ok (r, .EncryptThenMac)) ∧
    (∀ r : List Byte,
      parse_tls_extension (0x00 :: 0x17 :: 0x00 :: 0x00 :: r) = .ok (r, .ExtendedMasterSecret)) ∧
    (∀ r : List Byte,
      parse_tls_extension (0x00 :: 0x31 :: 0x00 :: 0x00 :: r) = .ok (r, .PostHandshakeAuth)) ∧
    (∀ (l1 l0 : Byte) (body : List Byte),
      body.length = l1.val * 256 + l0.val → 0 < body.length →
      parse_tls_extension (0x00 :: 0x16 :: l1 :: l0 :: body) = .error (.Error .Verify)) ∧
    (∀ (l1 l0 : Byte) (body : List Byte),
      body.length = l1.val * 256 + l0.val → 0 < body.length →
      parse_tls_extension (0x00 :: 0x17 :: l1 :: l0 :: body) = .error (.Error .Verify)) ∧
    (∀ (l1 l0 : Byte) (body : List Byte),
      body.length = l1.val * 256 + l0.val → 0 < body.length →
      parse_tls_extension (0x00 :: 0x31 :: l1 :: l0 :: body) = .error (.Error .Verify)) := by
  refine ⟨fun r => ?_, fun r => ?_, fun r => ?_,
    fun l1 l0 body hlen hpos => ?_, fun l1 l0 body hlen hpos => ?_,
    fun l1 l0 body hlen hpos => ?_⟩
  · simp only [parse_tls_extension, be_u16, pbind]
    unfold mapParser
    rw [show ((0x00 : Byte).val * 256 + (0x00 : Byte).val) = 0 by decide, take_zero]
    dsimp only
    rfl
  · simp only [parse_tls_extension, be_u16, pbind]
    unfold mapParser
    rw [show ((0x00 : Byte).val * 256 + (0x00 : Byte).val) = 0 by decide, take_zero]
    dsimp only
    rfl
  · simp only [parse_tls_extension, be_u16, pbind]
    unfold mapParser
    rw [show ((0x00 : Byte).val * 256 + (0x00 : Byte).val) = 0 by decide, take_zero]
    dsimp only
    rfl
  · simp only [parse_tls_extension, be_u16, pbind, ← hlen]
    unfold mapParser
    rw [take_exact]
    dsimp only
    unfold parse_tls_extension_with_type
    rw [if_neg (by decide : ¬((0x00 : Byte).val * 256 + (0x16 : Byte).val) &&& 0x0f0f = 0x0a0a)]
    dsimp only
    unfold parse_tls_extension_encrypt_then_mac_content
    rw [if_pos (Nat.pos_iff_ne_zero.mp hpos)]
  · simp only [parse_tls_extension, be_u16, pbind, ← hlen]
    unfold mapParser
    rw [take_exact]
    dsimp only
    unfold parse_tls_extension_with_type
    rw [if_neg (by decide : ¬((0x00 : Byte).val * 256 + (0x17 : Byte).val) &&& 0x0f0f = 0x0a0a)]
    dsimp only
    unfold parse_tls_extension_extended_master_secret_content
    rw [if_pos (Nat.pos_iff_ne_zero.mp hpos)]
  · simp only [parse_tls_extension, be_u16, pbind, ← hlen]
    unfold mapParser
    rw [take_exact]
    dsimp only
    unfold parse_tls_extension_with_type
    rw [if_neg (by decide : ¬((0x00 : Byte).val * 256 + (0x31 : Byte).val) &&& 0x0f0f = 0x0a0a)]
    dsimp only
    unfold parse_tls_extension_post_handshake_auth_content
    rw [if_pos (Nat.pos_iff_ne_zero.mp hpos)]

theorem zero_payload_extensions_witness :
    parse_tls_extension ([0x00, 0x16, 0x00, 0x00] : List Byte) = .ok ([], .EncryptThenMac) ∧
    parse_tls_extension ([0x00, 0x17, 0x00, 0x00] : List Byte) = .ok ([], .ExtendedMasterSecret) ∧
    parse_tls_extension ([0x00, 0x31, 0x00, 0x00] : List Byte) = .ok ([], .PostHandshakeAuth) ∧
    parse_tls_extension ([0x00, 0x16, 0x00, 0x01, 0x00] : List Byte) = .error (.Error .Verify) ∧
    parse_tls_extension ([0x00, 0x17, 0x00, 0x01, 0x00] : List Byte) = .error (.Error .Verify) ∧
    parse_tls_extension ([0x00, 0x31, 0x00, 0x01, 0x00] : List Byte) = .error (.Error .Verify) :=
  ⟨zero_payload_extensions.1 [], zero_payload_extensions.2.1 [],
   zero_payload_extensions.2.2.1 [],
   zero_payload_extensions.2.2.2.1 0x00 0x01 [0x00] (by decide) (by decide),
   zero_payload_extensions.2.2.2.2.1 0x00 0x01 [0x00] (by decide) (by decide),
   zero_payload_extensions.2.2.2.2.2 0x00 0x01 [0x00] (by decide) (by decide)⟩

/-- C9: when the envelope's declared length exceeds the bytes remaining
after the 4-byte header, `parse_tls_extension` returns `Incomplete` (with
the number of missing bytes); it never returns a success built from fewer
bytes than declared. -/
theorem truncated_envelope_incomplete (t1 t0 l1 l0 : Byte) (body : List Byte)
    (h : body.length < l1.val * 256 + l0.val) :
    parse_tls_extension (t1 :: t0 :: l1 :: l0 :: body) =
      .error (.Incomplete (.size (l1.val * 256 + l0.val - body.length))) := by
  simp only [parse_tls_extension, be_u16, pbind]
  unfold mapParser
  rw [take_short h]

theorem truncated_envelope_incomplete_witness :
    (([0x01, 0x02, 0x03, 0x04] : List Byte)).length < 10 ∧
    parse_tls_extension ([0x00, 0x33, 0x00, 0x0a, 0x01, 0x02, 0x03, 0x04] : List Byte) =
      .error (.Incomplete (.size 6)) :=
  ⟨by decide,
   truncated_envelope_incomplete 0x00 0x33 0x00 0x0a [0x01, 0x02, 0x03, 0x04] (by decide)⟩

/-- C2: the SupportedVersions content decoder is dual-format keyed on the
declared length: with declared length 2 it reads one big-endian u16 and
returns a one-element version list; otherwise (body of exactly the declared
length) it consumes one leading byte as an unused marker and parses the
remaining `declared length − 1` bytes as the version list. -/
theorem supported_versions_dual_format :
    (∀ (a b : Byte) (r : List Byte),
      parse_tls_extension_supported_versions_content (a :: b :: r) 2 =
        .ok (r, .SupportedVersions [a.val * 256 + b.val])) ∧
    (∀ (ext_len : Nat) (b0 : Byte) (rest leftover : List Byte) (l : List TlsVersion),
      ext_len ≠ 2 → (b0 :: rest).length = ext_len →
      parse_tls_versions rest = .ok (leftover, l) →
      parse_tls_extension_supported_versions_content (b0 :: rest) ext_len =
        .ok ([], .SupportedVersions l)) := by
  constructor
  · intro a b r
    simp [parse_tls_extension_supported_versions_content, nomMap, be_u16]
  · intro ext_len b0 rest leftover l hne hlen hv
    subst hlen
    simp only [List.length_cons] at *
    unfold parse_tls_extension_supported_versions_content
    rw [if_neg hne]
    simp only [be_u8, pbind]
    rw [if_neg (by omega : ¬ rest.length + 1 = 0)]
    have h1 : rest.length + 1 - 1 = rest.length := by omega
    rw [h1]
    unfold mapParser
    rw [take_exact]
    dsimp only
    rw [hv]

theorem supported_versions_dual_format_witness :
    parse_tls_extension_supported_versions_content ([0x02, 0x03] : List Byte) 2 =
      .ok ([], .SupportedVersions [0x0203]) ∧
    ((5 : Nat) ≠ 2 ∧
     parse_tls_extension_supported_versions_content ([0x02, 0x03, 0x04, 0x03, 0x03] : List Byte) 5 =
       .ok ([], .SupportedVersions [0x0304, 0x0303])) :=
  ⟨supported_versions_dual_format.1 0x02 0x03 [],
   by decide,
   supported_versions_dual_format.2 5 0x02 [0x03, 0x04, 0x03, 0x03] [] [0x0304, 0x0303]
     (by decide) (by decide) (by decide)⟩

theorem take_ok_inv {n : Nat} {i rem o : List Byte} (h : take n i = .ok (rem, o)) :
    n ≤ i.length ∧ rem = i.drop n ∧ o = i.take n := by
  by_cases hn : n ≤ i.length
  · simp only [take, if_pos hn] at h
    cases h
    exact ⟨hn, rfl, rfl⟩
  · simp only [take, if_neg hn] at h
    cases h

theorem parse_tls_extension_ok_length {e rem : List Byte} {v : TlsExtension}
    (h : parse_tls_extension e = .ok (rem, v)) : 4 ≤ e.length := by
  match e with
  | [] => simp [parse_tls_extension, be_u16, pbind] at h
  | [a] => simp [parse_tls_extension, be_u16, pbind] at h
  | [a, b] => simp [parse_tls_extension, be_u16, pbind] at h
  | [a, b, c] => simp [parse_tls_extension, be_u16, pbind] at h
  | a :: b :: c :: d :: t => simp

theorem parse_tls_extension_append {e : List Byte} {v : TlsExtension}
    (h : parse_tls_extension e = .ok ([], v)) (r : List Byte) :
    parse_tls_extension (e ++ r) = .ok (r, v) := by
  match e with
  | [] => simp [parse_tls_extension, be_u16, pbind] at h
  | [a] => simp [parse_tls_extension, be_u16, pbind] at h
  | [a, b] => simp [parse_tls_extension, be_u16, pbind] at h
  | [a, b, c] => simp [parse_tls_extension, be_u16, pbind] at h
  | a :: b :: c :: d :: t =>
    simp only [parse_tls_extension, be_u16, pbind, List.cons_append] at h ⊢
    obtain ⟨o, r2, hf, hg⟩ := mapParser_ok_inv h
    obtain ⟨hle, hrem, ho⟩ := take_ok_inv hf
    have hlen : c.val * 256 + d.val = t.length := by
      have := List.drop_eq_nil_iff.mp hrem.symm
      omega
    have ho2 : o = t := by rw [ho, hlen, List.take_length]
    subst ho2
    dsimp only at hg
    rw [hlen] at hg
    unfold mapParser
    rw [hlen, take_append]
    dsimp only
    rw [hg]

theorem many0Go_fuel_congr {A : Type} (f : List Byte → IResult A) :
    ∀ (n m : Nat) (i : List Byte), i.length < n → i.length < m →
      many0Go f n i = many0Go f m i := by
  intro n
  induction n with
  | zero => intro m i h _; exact absurd h (Nat.not_lt_zero _)
  | succ n ih =>
    intro m i hn hm
    match m with
    | 0 => exact absurd hm (Nat.not_lt_zero _)
    | m + 1 =>
      simp only [many0Go]
      cases hf : f i with
      | error e => cases e <;> rfl
      | ok p =>
        obtain ⟨i2, a⟩ := p
        dsimp only
        by_cases hlt : i2.length < i.length
        · rw [if_pos hlt, if_pos hlt, ih m i2 (by omega) (by omega)]
        · rw [if_neg hlt, if_neg hlt]

theorem many0_unfold {A : Type} (f : List Byte → IResult A) (i : List Byte) :
    many0 f i =
      match f i with
      | .error (.Error _) => .ok (i, [])
      | .error e => .error e
      | .ok (i2, a) =>
        if i2.length < i.length then
          match many0 f i2 with
          | .ok (r, acc) => .ok (r, a :: acc)
          | .error e => .error e
        else .error (.Error .Many0) := by
  unfold many0
  simp only [many0Go]
  cases hf : f i with
  | error e => cases e <;> rfl
  | ok p =>
    obtain ⟨i2, a⟩ := p
    dsimp only
    by_cases hlt : i2.length < i.length
    · rw [if_pos hlt, if_pos hlt,
        many0Go_fuel_congr f i.length (i2.length + 1) i2 hlt (Nat.lt_succ_self _)]
      simp only [many0Go]
    · rw [if_neg hlt, if_neg hlt]

theorem parse_tls_extensions_cons {e rest : List Byte} {v : TlsExtension}
    (h : parse_tls_extension e = .ok ([], v)) :
    parse_tls_extensions (e ++ rest) =
      match parse_tls_extensions rest with
      | .ok (r, acc) => .ok (r, v :: acc)
      | .error er => .error er := by
  have h4 : 4 ≤ e.length := parse_tls_extension_ok_length h
  have hc : complete parse_tls_extension (e ++ rest) = .ok (rest, v) := by
    unfold complete
    rw [parse_tls_extension_append h rest]
  have hlt : rest.length < (e ++ rest).length := by
    simp only [List.length_append]; omega
  unfold parse_tls_extensions
  rw [many0_unfold, hc]
  dsimp only
  rw [if_pos hlt]
  cases hm : many0 (complete parse_tls_extension) rest with
  | ok p => obtain ⟨r, acc⟩ := p; rfl
  | error er => rfl

/-- C8: the sequence decoder on a back-to-back concatenation of well-formed
envelopes (each parsing exactly to one extension with no leftover) returns
all decoded extensions in wire order, and on the empty input it returns the
empty sequence. -/
theorem sequence_wire_order :
    (∀ (ps : List (List Byte × TlsExtension)),
      (∀ p ∈ ps, parse_tls_extension p.1 = .ok ([], p.2)) →
      parse_tls_extensions (ps.map Prod.fst).flatten = .ok ([], ps.map Prod.snd)) ∧
    parse_tls_extensions [] = .ok ([], []) := by
  constructor
  · intro ps
    induction ps with
    | nil => intro _; decide
    | cons p ps ih =>
      intro hall
      obtain ⟨e, v⟩ := p
      simp only [List.map_cons, List.flatten_cons]
      rw [parse_tls_extensions_cons (hall (e, v) (by simp))]
      rw [ih (fun q hq => hall q (List.mem_cons_of_mem _ hq))]
  · decide

theorem sequence_wire_order_witness :
    parse_tls_extension ([0x00, 0x16, 0x00, 0x00] : List Byte) = .ok ([], .EncryptThenMac) ∧
    parse_tls_extension ([0x00, 0x17, 0x00, 0x00] : List Byte) = .ok ([], .ExtendedMasterSecret) ∧
    parse_tls_extensions ([0x00, 0x16, 0x00, 0x00, 0x00, 0x17, 0x00, 0x00] : List Byte) =
      .ok ([], [.EncryptThenMac, .ExtendedMasterSecret]) :=
  ⟨by decide, by decide, by
    have := sequence_wire_order.1
      [(([0x00, 0x16, 0x00, 0x00] : List Byte), TlsExtension.EncryptThenMac),
       (([0x00, 0x17, 0x00, 0x00] : List Byte), TlsExtension.ExtendedMasterSecret)]
      (by decide)
    simpa using this⟩

/-- C4 (counterexample to the claim as stated): a sequence made of one
well-formed envelope followed by a failing one does not surface the failure:
`parse_tls_extensions` returns `Ok` with the partial list of already-decoded
extensions and the unconsumed remainder, even though decoding the second
extension fails with a `Verify` error. -/
theorem sequence_error_counterexample :
    parse_tls_extension ([0x00, 0x16, 0x00, 0x01, 0x00] : List Byte) =
      .error (.Error .Verify) ∧
    parse_tls_extensions
      ([0x00, 0x16, 0x00, 0x00, 0x00, 0x16, 0x00, 0x01, 0x00] : List Byte) =
      .ok ([0x00, 0x16, 0x00, 0x01, 0x00], [.EncryptThenMac]) := by
  decide

/-- C4 (amended): a parse failure or incomplete-input condition mid-sequence
does not abort the sequence decode with that condition; instead `many0`
stops at the failing extension and the decoder returns success with the
already-decoded prefix and the unconsumed remainder starting at the failing
envelope (an `Incomplete` from the extension decoder is first converted to a
recoverable error by `complete` and is likewise swallowed). -/
theorem sequence_swallows_mid_failure {e rest : List Byte} {v : TlsExtension}
    {k : ErrorKind} (h : parse_tls_extension e = .ok ([], v))
    (hfail : complete parse_tls_extension rest = .error (.Error k)) :
    parse_tls_extensions (e ++ rest) = .ok (rest, [v]) := by
  rw [parse_tls_extensions_cons h]
  have hrest : parse_tls_extensions rest = .ok (rest, []) := by
    unfold parse_tls_extensions
    rw [many0_unfold, hfail]
  rw [hrest]

theorem sequence_swallows_mid_failure_witness :
    parse_tls_extension ([0x00, 0x16, 0x00, 0x00] : List Byte) = .ok ([], .EncryptThenMac) ∧
    complete parse_tls_extension ([0x00, 0x16, 0x00, 0x01, 0x00] : List Byte) =
      .error (.Error .Verify) ∧
    parse_tls_extensions
      (([0x00, 0x16, 0x00, 0x00] : List Byte) ++ [0x00, 0x16, 0x00, 0x01, 0x00]) =
      .ok ([0x00, 0x16, 0x00, 0x01, 0x00], [.EncryptThenMac]) :=
  ⟨by decide, by decide, sequence_swallows_mid_failure (k := .Verify) (by decide) (by decide)⟩

/-! ## Shape lemmas: each content decoder returns its fixed constructor -/

theorem sni_content_shape {i r : List Byte} {v : TlsExtension}
    (h : parse_tls_extension_sni_content i = .ok (r, v)) : ∃ l, v = .SNI l := by
  unfold parse_tls_extension_sni_content at h
  obtain ⟨i1, a1, h1, h⟩ := pbind_ok_inv h
  obtain ⟨i2, a2, h2, h⟩ := pbind_ok_inv h
  cases h
  exact ⟨a2, rfl⟩

theorem max_fragment_length_content_shape {i r : List Byte} {v : TlsExtension}
    (h : parse_tls_extension_max_fragment_length_content i = .ok (r, v)) :
    ∃ n, v = .MaxFragmentLength n := by
  obtain ⟨a, _, hv⟩ := nomMap_ok_inv h
  exact ⟨a, hv⟩

theorem status_request_content_shape {i r : List Byte} {L : Nat} {v : TlsExtension}
    (h : parse_tls_extension_status_request_content i L = .ok (r, v)) :
    ∃ o, v = .StatusRequest o := by
  unfold parse_tls_extension_status_request_content at h
  cases L with
  | zero => cases h; exact ⟨none, rfl⟩
  | succ n =>
    obtain ⟨i1, a1, h1, h⟩ := pbind_ok_inv h
    obtain ⟨i2, a2, h2, h⟩ := pbind_ok_inv h
    cases h
    exact ⟨_, rfl⟩

theorem elliptic_curves_content_shape {i r : List Byte} {v : TlsExtension}
    (h : parse_tls_extension_elliptic_curves_content i = .ok (r, v)) :
    ∃ l, v = .EllipticCurves l := by
  unfold parse_tls_extension_elliptic_curves_content at h
  obtain ⟨o, r2, hf, hg⟩ := mapParser_ok_inv h
  obtain ⟨a, _, hv⟩ := nomMap_ok_inv hg
  exact ⟨a, hv⟩

theorem ec_point_formats_content_shape {i r : List Byte} {v : TlsExtension}
    (h : parse_tls_extension_ec_point_formats_content i = .ok (r, v)) :
    ∃ b, v = .EcPointFormats b := by
  obtain ⟨a, _, hv⟩ := nomMap_ok_inv h
  exact ⟨a, hv⟩

theorem signature_algorithms_content_shape {i r : List Byte} {v : TlsExtension}
    (h : parse_tls_extension_signature_algorithms_content i = .ok (r, v)) :
    ∃ l, v = .SignatureAlgorithms l := by
  unfold parse_tls_extension_signature_algorithms_content at h
  obtain ⟨i1, a1, h1, h⟩ := pbind_ok_inv h
  cases h
  exact ⟨a1, rfl⟩

theorem heartbeat_content_shape {i r : List Byte} {v : TlsExtension}
    (h : parse_tls_extension_heartbeat_content i = .ok (r, v)) :
    ∃ n, v = .Heartbeat n := by
  obtain ⟨a, _, hv⟩ := nomMap_ok_inv h
  exact ⟨a, hv⟩

theorem alpn_content_shape {i r : List Byte} {v : TlsExtension}
    (h : parse_tls_extension_alpn_content i = .ok (r, v)) : ∃ l, v = .ALPN l := by
  unfold parse_tls_extension_alpn_content at h
  obtain ⟨i1, a1, h1, h⟩ := pbind_ok_inv h
  cases h
  exact ⟨a1, rfl⟩

theorem sct_content_shape {i r : List Byte} {v : TlsExtension}
    (h : parse_tls_extension_signed_certificate_timestamp_content i = .ok (r, v)) :
    ∃ o, v = .SignedCertificateTimestamp o := by
  obtain ⟨a, _, hv⟩ := nomMap_ok_inv h
  exact ⟨a, hv⟩

theorem padding_content_shape {i r : List Byte} {L : Nat} {v : TlsExtension}
    (h : parse_tls_extension_padding_content i L = .ok (r, v)) :
    ∃ b, v = .Padding b := by
  obtain ⟨a, _, hv⟩ := nomMap_ok_inv h
  exact ⟨a, hv⟩

theorem etm_content_shape {i r : List Byte} {L : Nat} {v : TlsExtension}
    (h : parse_tls_extension_encrypt_then_mac_content i L = .ok (r, v)) :
    v = .EncryptThenMac := by
  unfold parse_tls_extension_encrypt_then_mac_content at h
  by_cases hL : L ≠ 0
  · rw [if_pos hL] at h; cases h
  · rw [if_neg hL] at h; cases h; rfl

theorem ems_content_shape {i r : List Byte} {L : Nat} {v : TlsExtension}
    (h : parse_tls_extension_extended_master_secret_content i L = .ok (r, v)) :
    v = .ExtendedMasterSecret := by
  unfold parse_tls_extension_extended_master_secret_content at h
  by_cases hL : L ≠ 0
  · rw [if_pos hL] at h; cases h
  · rw [if_neg hL] at h; cases h; rfl

theorem record_size_limit_shape {i r : List Byte} {v : TlsExtension}
    (h : parse_tls_extension_record_size_limit i = .ok (r, v)) :
    ∃ n, v = .RecordSizeLimit n := by
  obtain ⟨a, _, hv⟩ := nomMap_ok_inv h
  exact ⟨a, hv⟩

theorem session_ticket_content_shape {i r : List Byte} {L : Nat} {v : TlsExtension}
    (h : parse_tls_extension_session_ticket_content i L = .ok (r, v)) :
    ∃ b, v = .SessionTicket b := by
  obtain ⟨a, _, hv⟩ := nomMap_ok_inv h
  exact ⟨a, hv⟩

theorem key_share_old_content_shape {i r : List Byte} {L : Nat} {v : TlsExtension}
    (h : parse_tls_extension_key_share_old_content i L = .ok (r, v)) :
    ∃ b, v = .KeyShareOld b := by
  obtain ⟨a, _, hv⟩ := nomMap_ok_inv h
  exact ⟨a, hv⟩

theorem key_share_content_shape {i r : List Byte} {L : Nat} {v : TlsExtension}
    (h : parse_tls_extension_key_share_content i L = .ok (r, v)) :
    ∃ b, v = .KeyShare b := by
  obtain ⟨a, _, hv⟩ := nomMap_ok_inv h
  exact ⟨a, hv⟩

theorem pre_shared_key_content_shape {i r : List Byte} {L : Nat} {v : TlsExtension}
    (h : parse_tls_extension_pre_shared_key_content i L = .ok (r, v)) :
    ∃ b, v = .PreSharedKey b := by
  obtain ⟨a, _, hv⟩ := nomMap_ok_inv h
  exact ⟨a, hv⟩

theorem early_data_content_shape {i r : List Byte} {L : Nat} {v : TlsExtension}
    (h : parse_tls_extension_early_data_content i L = .ok (r, v)) :
    ∃ o, v = .EarlyData o := by
  obtain ⟨a, _, hv⟩ := nomMap_ok_inv h
  exact ⟨a, hv⟩

theorem supported_versions_content_shape {i r : List Byte} {L : Nat} {v : TlsExtension}
    (h : parse_tls_extension_supported_versions_content i L = .ok (r, v)) :
    ∃ l, v = .SupportedVersions l := by
  unfold parse_tls_extension_supported_versions_content at h
  by_cases hL : L = 2
  · rw [if_pos hL] at h
    obtain ⟨a, _, hv⟩ := nomMap_ok_inv h
    exact ⟨[a], hv⟩
  · rw [if_neg hL] at h
    obtain ⟨i1, a1, h1, h⟩ := pbind_ok_inv h
    by_cases hL0 : L = 0
    · rw [if_pos hL0] at h; cases h
    · rw [if_neg hL0] at h
      obtain ⟨i2, a2, h2, h⟩ := pbind_ok_inv h
      cases h
      exact ⟨a2, rfl⟩

theorem cookie_content_shape {i r : List Byte} {L : Nat} {v : TlsExtension}
    (h : parse_tls_extension_cookie_content i L = .ok (r, v)) :
    ∃ b, v = .Cookie b := by
  obtain ⟨a, _, hv⟩ := nomMap_ok_inv h
  exact ⟨a, hv⟩

theorem psk_key_exchange_modes_content_shape {i r : List Byte} {v : TlsExtension}
    (h : parse_tls_extension_psk_key_exchange_modes_content i = .ok (r, v)) :
    ∃ b, v = .PskExchangeModes b := by
  unfold parse_tls_extension_psk_key_exchange_modes_content at h
  obtain ⟨i1, a1, h1, h⟩ := pbind_ok_inv h
  cases h
  exact ⟨a1, rfl⟩

theorem npn_content_shape {i r : List Byte} {L : Nat} {v : TlsExtension}
    (h : parse_tls_extension_npn_content i L = .ok (r, v)) :
    v = .NextProtocolNegotiation := by
  unfold parse_tls_extension_npn_content at h
  by_cases hL : L ≠ 0
  · rw [if_pos hL] at h; cases h
  · rw [if_neg hL] at h; cases h; rfl

theorem renegotiation_info_content_shape {i r : List Byte} {v : TlsExtension}
    (h : parse_tls_extension_renegotiation_info_content i = .ok (r, v)) :
    ∃ b, v = .RenegotiationInfo b := by
  obtain ⟨a, _, hv⟩ := nomMap_ok_inv h
  exact ⟨a, hv⟩

theorem encrypted_server_name_shape {i r : List Byte} {v : TlsExtension}
    (h : parse_tls_extension_encrypted_server_name i = .ok (r, v)) :
    ∃ cs g ks rd es, v = .EncryptedServerName cs g ks rd es := by
  unfold parse_tls_extension_encrypted_server_name at h
  obtain ⟨i1, a1, h1, h⟩ := pbind_ok_inv h
  obtain ⟨i2, a2, h2, h⟩ := pbind_ok_inv h
  obtain ⟨i3, a3, h3, h⟩ := pbind_ok_inv h
  obtain ⟨i4, a4, h4, h⟩ := pbind_ok_inv h
  obtain ⟨i5, a5, h5, h⟩ := pbind_ok_inv h
  cases h
  exact ⟨a1, a2, a3, a4, a5, rfl⟩

theorem oid_filters_shape {i r : List Byte} {v : TlsExtension}
    (h : parse_tls_extension_oid_filters i = .ok (r, v)) : ∃ l, v = .OidFilters l := by
  unfold parse_tls_extension_oid_filters at h
  obtain ⟨i1, a1, h1, h⟩ := pbind_ok_inv h
  cases h
  exact ⟨a1, rfl⟩

theorem pha_content_shape {i r : List Byte} {L : Nat} {v : TlsExtension}
    (h : parse_tls_extension_post_handshake_auth_content i L = .ok (r, v)) :
    v = .PostHandshakeAuth := by
  unfold parse_tls_extension_post_handshake_auth_content at h
  by_cases hL : L ≠ 0
  · rw [if_pos hL] at h; cases h
  · rw [if_neg hL] at h; cases h; rfl

theorem with_type_projection {i r : List Byte} {t L : Nat} {v : TlsExtension}
    (h : parse_tls_extension_with_type i t L = .ok (r, v))
    (hg : ∀ c d, v ≠ .Grease c d) (hu : ∀ ty d, v ≠ .Unknown ty d) :
    (TlsExtensionType.fromExt v).code = t := by
  unfold parse_tls_extension_with_type at h
  by_cases hgr : t &&& 0x0f0f = 0x0a0a
  · rw [if_pos hgr] at h
    obtain ⟨a, _, hv⟩ := nomMap_ok_inv h
    exact absurd hv (hg t a)
  · rw [if_neg hgr] at h
    split at h
    · obtain ⟨l, rfl⟩ := sni_content_shape h; rfl
    · obtain ⟨n, rfl⟩ := max_fragment_length_content_shape h; rfl
    · obtain ⟨o, rfl⟩ := status_request_content_shape h; rfl
    · obtain ⟨l, rfl⟩ := elliptic_curves_content_shape h; rfl
    · obtain ⟨b, rfl⟩ := ec_point_formats_content_shape h; rfl
    · obtain ⟨l, rfl⟩ := signature_algorithms_content_shape h; rfl
    · obtain ⟨n, rfl⟩ := heartbeat_content_shape h; rfl
    · obtain ⟨l, rfl⟩ := alpn_content_shape h; rfl
    · obtain ⟨o, rfl⟩ := sct_content_shape h; rfl
    · obtain ⟨b, rfl⟩ := padding_content_shape h; rfl
    · obtain rfl := etm_content_shape h; rfl
    · obtain rfl := ems_content_shape h; rfl
    · obtain ⟨n, rfl⟩ := record_size_limit_shape h; rfl
    · obtain ⟨b, rfl⟩ := session_ticket_content_shape h; rfl
    · obtain ⟨b, rfl⟩ := key_share_old_content_shape h; rfl
    · obtain ⟨b, rfl⟩ := pre_shared_key_content_shape h; rfl
    · obtain ⟨o, rfl⟩ := early_data_content_shape h; rfl
    · obtain ⟨l, rfl⟩ := supported_versions_content_shape h; rfl
    · obtain ⟨b, rfl⟩ := cookie_content_shape h; rfl
    · obtain ⟨b, rfl⟩ := psk_key_exchange_modes_content_shape h; rfl
    · obtain ⟨l, rfl⟩ := oid_filters_shape h; rfl
    · obtain rfl := pha_content_shape h; rfl
    · obtain ⟨b, rfl⟩ := key_share_content_shape h; rfl
    · obtain rfl := npn_content_shape h; rfl
    · obtain ⟨b, rfl⟩ := renegotiation_info_content_shape h; rfl
    · obtain ⟨cs, g, ks, rd, es, rfl⟩ := encrypted_server_name_shape h; rfl
    · obtain ⟨a, _, hv⟩ := nomMap_ok_inv h
      exact absurd hv (hu _ a)

/-- C7: for every successful envelope decode whose value is neither the
`Grease` nor the `Unknown` case, the type-code projection of the value
equals the 16-bit type code read from the envelope's first two bytes. -/
theorem projection_matches_envelope_code {t1 t0 : Byte} {rest r : List Byte}
    {v : TlsExtension}
    (h : parse_tls_extension (t1 :: t0 :: rest) = .ok (r, v))
    (hg : ∀ c d, v ≠ .Grease c d) (hu : ∀ ty d, v ≠ .Unknown ty d) :
    (TlsExtensionType.fromExt v).code = t1.val * 256 + t0.val := by
  unfold parse_tls_extension at h
  simp only [be_u16, pbind] at h
  obtain ⟨i2, L, h2, h⟩ := pbind_ok_inv h
  obtain ⟨o, r2, hf, hgm⟩ := mapParser_ok_inv h
  exact with_type_projection hgm hg hu

theorem projection_matches_envelope_code_witness :
    parse_tls_extension ([0x00, 0x1c, 0x00, 0x02, 0x01, 0x02] : List Byte) =
      .ok ([], .RecordSizeLimit 0x0102) ∧
    (TlsExtensionType.fromExt (.RecordSizeLimit 0x0102)).code =
      (0x00 : Byte).val * 256 + (0x1c : Byte).val :=
  ⟨by decide,
   @projection_matches_envelope_code 0x00 0x1c [0x00, 0x02, 0x01, 0x02] []
     (.RecordSizeLimit 0x0102) (by decide)
     (fun c d hcd => TlsExtension.noConfusion hcd)
     (fun ty d hcd => TlsExtension.noConfusion hcd)⟩

end TlsParser
